import Mathlib

/-!
Shallow embedding of the financial-data ETL pipeline (extract / transform /
load JavaScript modules) and verification of the frozen claims about it.

Modelling conventions:
* JS numbers that the program obtains by parsing well-formed decimal strings
  (prices, ratios) are modelled as rationals; `Math.sqrt` values are real.
* A JS object field that may be absent (`undefined`) is an `Option`.
* The wall clock (`new Date().toISOString()`) is passed in explicitly as a
  `now : String` argument; the source reads it once per returned record.
* Fallible calls (`axios.get`, the database insert) are `Except String`,
  carrying the JS error message.
-/

namespace ETL

/-! ## JavaScript value helpers -/

/-- Truthiness of an optional JS string field: `undefined` and the empty
string are falsy, every other string is truthy. -/
def jsTruthy : Option String → Bool
  | none => false
  | some s => !(s == "")

/-- Value of a list of decimal digits, most significant first. -/
def digitsVal (cs : List Char) : ℕ :=
  cs.foldl (fun n c => 10 * n + (c.toNat - 48)) 0

/-- Model of JavaScript `parseFloat` on well-formed decimal strings
(optional sign, integer digits, optional fractional digits), which is the
shape the upstream API delivers; `NaN` results on malformed input are not
modelled. -/
def parseFloat (s : String) : ℚ :=
  let signAndDigits : ℚ × List Char :=
    match s.toList with
    | '-' :: rest => (-1, rest)
    | cs => (1, cs)
  let intPart := signAndDigits.2.takeWhile Char.isDigit
  let rest := signAndDigits.2.dropWhile Char.isDigit
  let fracPart : List Char :=
    match rest with
    | '.' :: r => r.takeWhile Char.isDigit
    | _ => []
  signAndDigits.1 *
    ((digitsVal intPart : ℚ) + (digitsVal fracPart : ℚ) / (10 : ℚ) ^ fracPart.length)

/-! ## Stable descending sort by a natural-number key

Models `Array.prototype.sort` with comparator `(a, b) => dateOf(b) - dateOf(a)`
(a stable sort, descending by date).  Dates are modelled as naturals. -/

/-- Insert `x` in front of the first element whose key is not larger;
this makes the overall sort stable. -/
def insertDescBy {α : Type} (key : α → ℕ) (x : α) : List α → List α
  | [] => [x]
  | y :: ys => if key x < key y then y :: insertDescBy key x ys else x :: y :: ys

/-- Stable insertion sort, descending by `key`. -/
def sortDescBy {α : Type} (key : α → ℕ) : List α → List α
  | [] => []
  | x :: xs => insertDescBy key x (sortDescBy key xs)

/-! ## Data model: extractor output (RawSeries) -/

/-- One daily OHLCV bar of an equity time series; the `'1. open'` …
`'5. volume'` decimal strings are modelled by the numbers `parseFloat` /
`parseInt` yield on them. -/
structure StockBar where
  barOpen : ℚ
  barHigh : ℚ
  barLow : ℚ
  barClose : ℚ
  barVolume : ℤ
deriving DecidableEq, Inhabited

/-- The company-overview payload: a fixed set of optional decimal-string
ratio fields, destructured by `calculateStockMetrics`. -/
structure Overview where
  MarketCapitalization : Option String
  PERatio : Option String
  DividendYield : Option String
  EPS : Option String
  RevenueTTM : Option String
  GrossProfitTTM : Option String
  ProfitMargin : Option String
  OperatingMarginTTM : Option String
  ReturnOnAssetsTTM : Option String
  ReturnOnEquityTTM : Option String
  DilutedEPSTTM : Option String
deriving DecidableEq, Inhabited

/-- The overview object with every field absent (the `|| \x7b\x7d` fallback). -/
def emptyOverview : Overview :=
  ⟨none, none, none, none, none, none, none, none, none, none, none⟩

/-- A raw per-equity series as produced by `fetchStockData`.  `timeSeries` is
the date-keyed mapping of bars, modelled as an association list with dates as
naturals; a degenerate (failed-fetch) series has `timeSeries` and `overview`
absent and `error` present. -/
structure StockData where
  symbol : String
  timeSeries : Option (List (ℕ × StockBar))
  overview : Option Overview
  error : Option String
  extractedAt : String
deriving DecidableEq, Inhabited

/-- One bar of the market-index history (already numeric in the upstream
payload). -/
structure MarketBar where
  date : ℕ
  barOpen : ℚ
  barHigh : ℚ
  barLow : ℚ
  barClose : ℚ
  barVolume : ℤ
deriving DecidableEq, Inhabited

/-- The raw market-index series as produced by `fetchMarketIndexData`. -/
structure MarketData where
  index : String
  historical : Option (List MarketBar)
  error : Option String
  extractedAt : String
deriving DecidableEq, Inhabited

/-! ## Data model: transform output (MetricsRecord) -/

/-- The `price` block of a metrics record. -/
structure PriceBlock where
  priceOpen : ℚ
  priceHigh : ℚ
  priceLow : ℚ
  priceClose : ℚ
  priceVolume : ℤ
deriving DecidableEq, Inhabited

/-- The `priceChanges` block: absolute and percent change at 7/30/90
trading-day lookbacks, each independently nullable. -/
structure ChangesBlock where
  change7d : Option ℚ
  change30d : Option ℚ
  change90d : Option ℚ
  percentChange7d : Option ℚ
  percentChange30d : Option ℚ
  percentChange90d : Option ℚ
deriving DecidableEq, Inhabited

/-- The `volatility` block; the annualized volatility is a real number
(`Math.sqrt`). -/
structure VolatilityBlock where
  volatility30d : Option ℝ

/-- The `fundamentals` block of parsed ratios, each nullable. -/
structure FundamentalsBlock where
  marketCap : Option ℚ
  peRatio : Option ℚ
  dividendYield : Option ℚ
  eps : Option ℚ
  revenue : Option ℚ
  grossProfit : Option ℚ
  profitMargin : Option ℚ
  operatingMargin : Option ℚ
  roa : Option ℚ
  roe : Option ℚ
  dilutedEPS : Option ℚ
deriving DecidableEq, Inhabited

/-- The transform output for one equity.  A degenerate record (error or no
data) has only `symbol`, `error` and `transformedAt`; the optional blocks
model the fields the JS object then simply does not carry. -/
structure StockMetricsRecord where
  symbol : String
  date : Option ℕ
  price : Option PriceBlock
  priceChanges : Option ChangesBlock
  volatility : Option VolatilityBlock
  fundamentals : Option FundamentalsBlock
  error : Option String
  transformedAt : String

/-- The transform output for the market index. -/
structure MarketMetricsRecord where
  index : String
  date : Option ℕ
  price : Option PriceBlock
  priceChanges : Option ChangesBlock
  volatility : Option VolatilityBlock
  error : Option String
  transformedAt : String

/-! ## Metric Engine (transform.js) -/

/-- The 30-iteration loop of transform.js lines 59-67: for `i = 0 .. 29`,
when `i + 1` is still in range, push the simple daily return between
consecutive closes of the date-descending sequence. -/
def dailyReturns (closes : List ℚ) : List ℚ :=
  (List.range 30).filterMap (fun i =>
    if i + 1 < closes.length then
      some ((closes.getD i 0 - closes.getD (i + 1) 0) / closes.getD (i + 1) 0)
    else none)

/-- Lines 56-74 (and identically 179-197): annualized 30-day volatility of
the date-descending close sequence, computed only when more than 30 bars
exist.  `reduce((sum, v) => sum + v, 0)` is `foldl (+) 0`,
`Math.pow(x, 2)` is `x ^ 2`; the variance divides by `returns.length`
(population, not sample), and the result is
`Math.sqrt(variance) * Math.sqrt(252) * 100`. -/
noncomputable def volatility30dOf (closes : List ℚ) : Option ℝ :=
  if 30 < closes.length then
    let returns := dailyReturns closes
    let mean := returns.foldl (· + ·) 0 / (returns.length : ℚ)
    let variance :=
      ((returns.map (fun v => (v - mean) ^ 2)).foldl (· + ·) 0) / (returns.length : ℚ)
    some (Real.sqrt (variance : ℝ) * Real.sqrt 252 * 100)
  else none

/-- An unscaled fundamentals field (`X ? parseFloat(X) : null` with JS
string truthiness). -/
def numField : Option String → Option ℚ
  | none => none
  | some s => if s == "" then none else some (parseFloat s)

/-- A fraction-valued fundamentals field, rescaled to a percentage
(`X ? parseFloat(X) * 100 : null`). -/
def pctField : Option String → Option ℚ
  | none => none
  | some s => if s == "" then none else some (parseFloat s * 100)

/-- The fundamentals block of transform.js lines 113-125. -/
def fundamentalsOf (overview : Overview) : FundamentalsBlock where
  marketCap := numField overview.MarketCapitalization
  peRatio := numField overview.PERatio
  dividendYield := pctField overview.DividendYield
  eps := numField overview.EPS
  revenue := numField overview.RevenueTTM
  grossProfit := numField overview.GrossProfitTTM
  profitMargin := pctField overview.ProfitMargin
  operatingMargin := pctField overview.OperatingMarginTTM
  roa := pctField overview.ReturnOnAssetsTTM
  roe := pctField overview.ReturnOnEquityTTM
  dilutedEPS := numField overview.DilutedEPSTTM

/-- The full (non-degenerate) record literal of transform.js lines 92-127,
over the date-descending `entries` whose head is `latest`. -/
noncomputable def stockRecordOfEntries (now symbol : String) (overview : Overview)
    (latest : ℕ × StockBar) (entries : List (ℕ × StockBar)) : StockMetricsRecord :=
  let latestClose := latest.2.barClose
  let day7Data : Option StockBar :=
    if 7 < entries.length then (entries[7]?).map Prod.snd else none
  let day30Data : Option StockBar :=
    if 30 < entries.length then (entries[30]?).map Prod.snd else none
  let day90Data : Option StockBar :=
    if 90 < entries.length then (entries[90]?).map Prod.snd else none
  { symbol := symbol
    date := some latest.1
    price := some { priceOpen := latest.2.barOpen, priceHigh := latest.2.barHigh,
                    priceLow := latest.2.barLow, priceClose := latestClose,
                    priceVolume := latest.2.barVolume }
    priceChanges := some
      { change7d := day7Data.map (fun b => latestClose - b.barClose)
        change30d := day30Data.map (fun b => latestClose - b.barClose)
        change90d := day90Data.map (fun b => latestClose - b.barClose)
        percentChange7d :=
          day7Data.map (fun b => (latestClose - b.barClose) / b.barClose * 100)
        percentChange30d :=
          day30Data.map (fun b => (latestClose - b.barClose) / b.barClose * 100)
        percentChange90d :=
          day90Data.map (fun b => (latestClose - b.barClose) / b.barClose * 100) }
    volatility := some ⟨volatility30dOf (entries.map (fun e => e.2.barClose))⟩
    fundamentals := some (fundamentalsOf overview)
    error := none
    transformedAt := now }

/-- Model of `calculateStockMetrics` (transform.js lines 11-128).  `now` models the
`new Date().toISOString()` reads.  Sorting the association list of
`(date, bar)` entries descending by date models sorting `Object.keys` and
indexing back into the object (keys are unique in a JS object).  The result
is `none` exactly where the JS function would throw a `TypeError`: a falsy
`error` together with an absent `timeSeries` (line 24 reads
`Object.keys(undefined)`), or an absent `overview` reached at the
destructuring on line 77. -/
noncomputable def calculateStockMetrics (now : String) (stockData : StockData) :
    Option StockMetricsRecord :=
  if jsTruthy stockData.error then
    some { symbol := stockData.symbol, date := none, price := none, priceChanges := none,
           volatility := none, fundamentals := none, error := stockData.error,
           transformedAt := now }
  else
    match stockData.timeSeries with
    | none => none
    | some timeSeries =>
      let entries := sortDescBy Prod.fst timeSeries
      match entries with
      | [] =>
        some { symbol := stockData.symbol, date := none, price := none, priceChanges := none,
               volatility := none, fundamentals := none,
               error := some "No time series data available", transformedAt := now }
      | latest :: _ =>
        match stockData.overview with
        | none => none
        | some overview =>
          some (stockRecordOfEntries now stockData.symbol overview latest entries)

/-- The full (non-degenerate) index record literal of transform.js lines
200-222, over the date-descending `sortedData` whose head is `latestData`. -/
noncomputable def marketRecordOfBars (now index : String) (latestData : MarketBar)
    (sortedData : List MarketBar) : MarketMetricsRecord :=
  let latestClose := latestData.barClose
  let day7Data : Option MarketBar :=
    if 7 < sortedData.length then sortedData[7]? else none
  let day30Data : Option MarketBar :=
    if 30 < sortedData.length then sortedData[30]? else none
  let day90Data : Option MarketBar :=
    if 90 < sortedData.length then sortedData[90]? else none
  { index := index
    date := some latestData.date
    price := some { priceOpen := latestData.barOpen, priceHigh := latestData.barHigh,
                    priceLow := latestData.barLow, priceClose := latestData.barClose,
                    priceVolume := latestData.barVolume }
    priceChanges := some
      { change7d := day7Data.map (fun b => latestClose - b.barClose)
        change30d := day30Data.map (fun b => latestClose - b.barClose)
        change90d := day90Data.map (fun b => latestClose - b.barClose)
        percentChange7d :=
          day7Data.map (fun b => (latestClose - b.barClose) / b.barClose * 100)
        percentChange30d :=
          day30Data.map (fun b => (latestClose - b.barClose) / b.barClose * 100)
        percentChange90d :=
          day90Data.map (fun b => (latestClose - b.barClose) / b.barClose * 100) }
    volatility := some ⟨volatility30dOf (sortedData.map (fun b => b.barClose))⟩
    error := none
    transformedAt := now }

/-- Model of `calculateMarketIndicators` (transform.js lines 135-223); same structure
as `calculateStockMetrics` minus fundamentals, over an array of bar objects
sorted date-descending (a stable sort, as `Array.prototype.sort` is). -/
noncomputable def calculateMarketIndicators (now : String) (marketData : MarketData) :
    Option MarketMetricsRecord :=
  if jsTruthy marketData.error then
    some { index := marketData.index, date := none, price := none, priceChanges := none,
           volatility := none, error := marketData.error, transformedAt := now }
  else
    match marketData.historical with
    | none => none
    | some historical =>
      let sortedData := sortDescBy MarketBar.date historical
      match sortedData with
      | [] =>
        some { index := marketData.index, date := none, price := none, priceChanges := none,
               volatility := none, error := some "No historical data available",
               transformedAt := now }
      | latestData :: _ =>
        some (marketRecordOfBars now marketData.index latestData sortedData)

/-! ## Extractor (extract.js) -/

/-- The payload of a TIME_SERIES_DAILY response: the distinguished
`'Error Message'` field and the optional `'Time Series (Daily)'` mapping. -/
structure TimeSeriesResponse where
  errorMessage : Option String
  timeSeries : Option (List (ℕ × StockBar))
deriving DecidableEq, Inhabited

/-- The behaviour of the upstream HTTP world for one run: each `axios.get`
either throws (an error message) or delivers a payload.  The overview and
market payloads are `Option`s because the source applies falsy-fallbacks
(`overviewResponse.data || \x7b\x7d`) and a missing-`historical` check to
them. -/
structure Network where
  timeSeriesResp : String → Except String TimeSeriesResponse
  overviewResp : String → Except String (Option Overview)
  marketResp : Except String (Option (List MarketBar))

/-- Externally observable steps of a per-equity fetch: an HTTP request being
issued (endpoint 0 = daily series, endpoint 1 = overview) or a blocking
timer wait. -/
inductive FetchEvent
  | requestStart (symbol : String) (endpointId : ℕ)
  | delayWait (ms : ℕ)
deriving DecidableEq

/-- Model of `fetchStockData` (extract.js lines 21-55) together with the ordered trace
of the requests it issues and the delays it performs.  On the success path
the fixed 1500 ms delay (line 38) comes after both of the symbol's own
requests; every failure path returns the degenerate series through the catch
block (lines 46-54) and performs no delay.  The upstream-error throw of line
29 carries the message built there. -/
def fetchStockData (net : Network) (now : String) (symbol : String) :
    StockData × List FetchEvent :=
  match net.timeSeriesResp symbol with
  | .error e =>
      ({ symbol := symbol, timeSeries := none, overview := none, error := some e,
         extractedAt := now }, [.requestStart symbol 0])
  | .ok resp =>
      if jsTruthy resp.errorMessage then
        ({ symbol := symbol, timeSeries := none, overview := none,
           error := some ("Alpha Vantage API error for " ++ symbol ++ ": "
             ++ resp.errorMessage.getD ""),
           extractedAt := now }, [.requestStart symbol 0])
      else
        match net.overviewResp symbol with
        | .error e =>
            ({ symbol := symbol, timeSeries := none, overview := none, error := some e,
               extractedAt := now }, [.requestStart symbol 0, .requestStart symbol 1])
        | .ok ovData =>
            ({ symbol := symbol, timeSeries := some (resp.timeSeries.getD []),
               overview := some (ovData.getD emptyOverview), error := none,
               extractedAt := now },
             [.requestStart symbol 0, .requestStart symbol 1, .delayWait 1500])

/-- Model of `fetchMarketIndexData` (extract.js lines 61-85). -/
def fetchMarketIndexData (net : Network) (now : String) : MarketData :=
  match net.marketResp with
  | .error e =>
      { index := "S&P500", historical := none, error := some e, extractedAt := now }
  | .ok none =>
      { index := "S&P500", historical := none,
        error := some "Failed to fetch S&P 500 data", extractedAt := now }
  | .ok (some hist) =>
      { index := "S&P500", historical := some hist, error := none, extractedAt := now }

/-- The value `extract` (extract.js lines 116-140) resolves with. -/
structure ExtractedData where
  stockData : List StockData
  marketData : MarketData
  extractionTimestamp : String

/-- Model of `extract` (lines 116-140): one `fetchStockData` result per tracked
symbol, plus the market fetch.  The best-effort `saveRawData` audit write
(lines 133-137) does not affect the returned value and is not modelled. -/
def extract (net : Network) (now : String) (symbols : List String) : ExtractedData where
  stockData := symbols.map (fun s => (fetchStockData net now s).1)
  marketData := fetchMarketIndexData net now
  extractionTimestamp := now

/-- The synchronous launch phase of `extract` (lines 120-121):
`STOCKS_TO_TRACK.map(symbol => fetchStockData(symbol))` invokes the async
function once per symbol, in order; each invocation runs synchronously up to
its first `await` — issuing its first HTTP request — and suspends, handing
control back to `map` for the next symbol.  Only afterwards does
`Promise.all` await the already-started promises.  The launch phase thus
performs, per symbol, the prefix of that symbol's fetch trace up to the
first suspension point. -/
def extractLaunchEvents (net : Network) (now : String) (symbols : List String) :
    List FetchEvent :=
  (symbols.map (fun s => (fetchStockData net now s).2.take 1)).flatten

/-- Whether a trace contains a blocking timer wait. -/
def hasDelay (evs : List FetchEvent) : Bool :=
  evs.any (fun e => match e with | .delayWait _ => true | _ => false)

/-- The throttling discipline the specification claims for the extractor:
as soon as at least two equities are fetched, some blocking delay occurs
during the launch sequence (a necessary condition of "a fixed minimum
inter-request delay as a blocking wait between each pair of successive
fetches"). -/
def LaunchesThrottled (net : Network) (now : String) (symbols : List String) : Prop :=
  2 ≤ symbols.length → hasDelay (extractLaunchEvents net now symbols) = true

/-- A concrete upstream behaviour on which every request succeeds with an
empty payload. -/
def emptyNet : Network where
  timeSeriesResp := fun _ => .ok ⟨none, some []⟩
  overviewResp := fun _ => .ok (some emptyOverview)
  marketResp := .ok (some [])

/-! ## Loader (load.js) -/

/-- A row of the `stock_metrics` table as built on load.js lines 37-66. -/
structure StockRow where
  symbol : String
  date : ℕ
  price_open : ℚ
  price_high : ℚ
  price_low : ℚ
  price_close : ℚ
  volume : ℤ
  price_change_7d : Option ℚ
  price_change_30d : Option ℚ
  price_change_90d : Option ℚ
  percent_change_7d : Option ℚ
  percent_change_30d : Option ℚ
  percent_change_90d : Option ℚ
  volatility_30d : Option ℝ
  market_cap : Option ℚ
  pe_ratio : Option ℚ
  dividend_yield : Option ℚ
  eps : Option ℚ
  revenue : Option ℚ
  gross_profit : Option ℚ
  profit_margin : Option ℚ
  operating_margin : Option ℚ
  roa : Option ℚ
  roe : Option ℚ
  diluted_eps : Option ℚ
  processed_at : String

/-- The row literal of load.js lines 38-65, reading the record's blocks;
`none` where the property accesses (`stock.price.open`, …) would throw a
`TypeError` on an absent block. -/
def stockRowOf (stock : StockMetricsRecord) : Option StockRow :=
  match stock.date, stock.price, stock.priceChanges, stock.volatility, stock.fundamentals with
  | some d, some p, some pc, some v, some f =>
      some { symbol := stock.symbol, date := d,
             price_open := p.priceOpen, price_high := p.priceHigh, price_low := p.priceLow,
             price_close := p.priceClose, volume := p.priceVolume,
             price_change_7d := pc.change7d, price_change_30d := pc.change30d,
             price_change_90d := pc.change90d,
             percent_change_7d := pc.percentChange7d,
             percent_change_30d := pc.percentChange30d,
             percent_change_90d := pc.percentChange90d,
             volatility_30d := v.volatility30d,
             market_cap := f.marketCap, pe_ratio := f.peRatio,
             dividend_yield := f.dividendYield, eps := f.eps, revenue := f.revenue,
             gross_profit := f.grossProfit, profit_margin := f.profitMargin,
             operating_margin := f.operatingMargin, roa := f.roa, roe := f.roe,
             diluted_eps := f.dilutedEPS, processed_at := stock.transformedAt }
  | _, _, _, _, _ => none

/-- A row of the `market_indicators` table (load.js lines 107-123). -/
structure MarketRow where
  index_name : String
  date : ℕ
  price_open : ℚ
  price_high : ℚ
  price_low : ℚ
  price_close : ℚ
  volume : ℤ
  price_change_7d : Option ℚ
  price_change_30d : Option ℚ
  price_change_90d : Option ℚ
  percent_change_7d : Option ℚ
  percent_change_30d : Option ℚ
  percent_change_90d : Option ℚ
  volatility_30d : Option ℝ
  processed_at : String

/-- The row literal of load.js lines 107-123. -/
def marketRowOf (mi : MarketMetricsRecord) : Option MarketRow :=
  match mi.date, mi.price, mi.priceChanges, mi.volatility with
  | some d, some p, some pc, some v =>
      some { index_name := mi.index, date := d,
             price_open := p.priceOpen, price_high := p.priceHigh, price_low := p.priceLow,
             price_close := p.priceClose, volume := p.priceVolume,
             price_change_7d := pc.change7d, price_change_30d := pc.change30d,
             price_change_90d := pc.change90d,
             percent_change_7d := pc.percentChange7d,
             percent_change_30d := pc.percentChange30d,
             percent_change_90d := pc.percentChange90d,
             volatility_30d := v.volatility30d, processed_at := mi.transformedAt }
  | _, _, _, _ => none

/-- One database-insert attempt: given the current table rows it either
succeeds with the new table state or fails with an error message (constraint
violation, connectivity failure, …). -/
def InsertBehavior (ρ : Type) : Type := List ρ → ρ → Except String (List ρ)

/-- The Supabase `insert` into `stock_metrics` under the migration's
`UNIQUE(symbol, date)` constraint: inserting an existing (symbol, date) key
fails with a uniqueness-violation error; otherwise the row is appended. -/
def dbInsertStock : InsertBehavior StockRow := fun db row =>
  if db.any (fun r => r.symbol == row.symbol && r.date == row.date) then
    .error "duplicate key value violates unique constraint"
  else
    .ok (db ++ [row])

/-- The `results` accumulator of `loadStockMetrics` (load.js lines 18-21):
`success` holds `(symbol, date)` entries, `errors` holds `(symbol, message)`
entries. -/
structure StockLoadResults where
  success : List (String × ℕ)
  errors : List (String × String)
deriving DecidableEq

/-- One iteration of the `for` loop of load.js lines 23-83: an
error-carrying record is skipped and recorded (lines 26-32); otherwise its
row is built and inserted, a failing insert (or a `TypeError` from a missing
block) being caught and recorded (lines 68-82). -/
def loadStockStep (ins : InsertBehavior StockRow)
    (st : List StockRow × StockLoadResults) (stock : StockMetricsRecord) :
    List StockRow × StockLoadResults :=
  if jsTruthy stock.error then
    (st.1, { st.2 with errors := st.2.errors ++ [(stock.symbol, stock.error.getD "")] })
  else
    match stockRowOf stock with
    | none =>
        (st.1, { st.2 with
          errors := st.2.errors ++ [(stock.symbol, "TypeError: cannot read property of undefined")] })
    | some row =>
        match ins st.1 row with
        | .ok db => (db, { st.2 with success := st.2.success ++ [(row.symbol, row.date)] })
        | .error e => (st.1, { st.2 with errors := st.2.errors ++ [(stock.symbol, e)] })

/-- Model of `loadStockMetrics` (load.js lines 17-86) against an abstract insert
behaviour, threading the table state through the sequential per-record
loop. -/
def loadStockMetrics (ins : InsertBehavior StockRow) (db : List StockRow)
    (stockMetrics : List StockMetricsRecord) : List StockRow × StockLoadResults :=
  stockMetrics.foldl (loadStockStep ins) (db, ⟨[], []⟩)

/-- The result object of `loadMarketIndicators` (load.js lines 93-143);
fields the JS object does not carry on a given path are `none`. -/
structure MarketLoadResult where
  success : Bool
  index : Option String
  date : Option ℕ
  error : Option String
deriving DecidableEq

/-- Model of `loadMarketIndicators` (load.js lines 93-143). -/
def loadMarketIndicators (ins : InsertBehavior MarketRow) (db : List MarketRow)
    (marketIndicators : Option MarketMetricsRecord) : List MarketRow × MarketLoadResult :=
  match marketIndicators with
  | none =>
      (db, { success := false, index := none, date := none,
             error := some "No market indicators provided" })
  | some mi =>
      if jsTruthy mi.error then
        (db, { success := false, index := none, date := none, error := mi.error })
      else
        match marketRowOf mi with
        | none =>
            (db, { success := false, index := some mi.index, date := none,
                   error := some "TypeError: cannot read property of undefined" })
        | some row =>
            match ins db row with
            | .ok db2 =>
                (db2, { success := true, index := some mi.index, date := some row.date,
                        error := none })
            | .error e =>
                (db, { success := false, index := some mi.index, date := none,
                       error := some e })

/-- The aggregate returned by `load` (load.js lines 164-170). -/
structure LoadSummary where
  stocksLoaded : ℕ
  stockErrors : ℕ
  indicatorsLoaded : ℕ
  indicatorErrors : ℕ
  timestamp : String
deriving DecidableEq

/-- The transform output handed to `load`. -/
structure TransformedData where
  stockMetrics : List StockMetricsRecord
  marketIndicators : Option MarketMetricsRecord
  transformationTimestamp : String

/-- Model of `load` (load.js lines 150-171): load the stock metrics, then the market
indicators (with the `marketIndicators ? … : \x7bsuccess:false,…\x7d` guard
of lines 159-161), and return the aggregate counts. -/
def load (insS : InsertBehavior StockRow) (insM : InsertBehavior MarketRow)
    (dbS : List StockRow) (dbM : List MarketRow) (now : String)
    (transformedData : TransformedData) :
    (List StockRow × List MarketRow) × LoadSummary :=
  let stockResults := loadStockMetrics insS dbS transformedData.stockMetrics
  let marketResult :=
    match transformedData.marketIndicators with
    | some mi => loadMarketIndicators insM dbM (some mi)
    | none =>
        (dbM, { success := false, index := none, date := none,
                error := some "No market indicators provided" })
  ((stockResults.1, marketResult.1),
   { stocksLoaded := stockResults.2.success.length
     stockErrors := stockResults.2.errors.length
     indicatorsLoaded := if marketResult.2.success then 1 else 0
     indicatorErrors := if marketResult.2.success then 0 else 1
     timestamp := now })

/-! ## Orchestrator (index.js) -/

/-- The structured result `runETLPipeline` resolves with; fields the JS
object does not carry are `none`. -/
structure RunResult where
  success : Bool
  message : Option String
  error : Option String
deriving DecidableEq

/-- Process-level actions the orchestrator could perform; `exitProcess`
exists in the model so that "never terminates the process" is expressible. -/
inductive ProcessAction
  | log (msg : String)
  | logError (msg : String)
  | exitProcess (code : ℕ)
deriving DecidableEq

/-- The three stage calls of `runETLPipeline`, abstracted as fallible
computations (each `await`ed call may reject with an error message). -/
structure PipelineStages where
  extractR : Except String ExtractedData
  transformR : ExtractedData → Except String TransformedData
  loadR : TransformedData → Except String LoadSummary

/-- The error message of the first stage to fail, if any, in the order the
`try` block of index.js lines 169-186 runs them. -/
def firstFailure (st : PipelineStages) : Option String :=
  match st.extractR with
  | .error e => some e
  | .ok raw =>
      match st.transformR raw with
      | .error e => some e
      | .ok td =>
          match st.loadR td with
          | .error e => some e
          | .ok _ => none

/-- Model of `runETLPipeline` (index.js lines 166-191).  The result type is
`Except String …` so that "the function itself throws" is representable;
the catch block of lines 187-190 converts any stage rejection into a
structured `.ok` result instead.  The trace collects the function's own
process-level actions (its console logging; it never calls
`process.exit`). -/
def runETLPipeline (st : PipelineStages) :
    Except String (RunResult × List ProcessAction) :=
  match st.extractR with
  | .error e =>
      .ok ({ success := false, message := none, error := some e },
           [.log "Starting ETL pipeline...", .log "Extracting data...",
            .logError ("Error in ETL pipeline: " ++ e)])
  | .ok raw =>
      match st.transformR raw with
      | .error e =>
          .ok ({ success := false, message := none, error := some e },
               [.log "Starting ETL pipeline...", .log "Extracting data...",
                .log "Transforming data...",
                .logError ("Error in ETL pipeline: " ++ e)])
      | .ok td =>
          match st.loadR td with
          | .error e =>
              .ok ({ success := false, message := none, error := some e },
                   [.log "Starting ETL pipeline...", .log "Extracting data...",
                    .log "Transforming data...", .log "Loading data into database...",
                    .logError ("Error in ETL pipeline: " ++ e)])
          | .ok _ =>
              .ok ({ success := true,
                     message := some "ETL pipeline completed successfully", error := none },
                   [.log "Starting ETL pipeline...", .log "Extracting data...",
                    .log "Transforming data...", .log "Loading data into database...",
                    .log "ETL pipeline completed successfully!"])

/-! ## Specification-side observers

These definitions follow the wording of the specification (not the source)
and are compared against the source-derived definitions in the theorems. -/

/-- Close of the `i`-th bar of a date-descending equity sequence. -/
def stockCloseAt (l : List (ℕ × StockBar)) (i : ℕ) : ℚ :=
  ((l.getD i (0, default)).2).barClose

/-- Close of the `i`-th bar of a date-descending index sequence. -/
def marketCloseAt (l : List MarketBar) (i : ℕ) : ℚ :=
  (l.getD i default).barClose

/-- Population variance as the specification words it: the sum of squared
deviations from the mean, divided by the count (not count − 1). -/
def popVariance (xs : List ℚ) : ℚ :=
  ((xs.map (fun x => (x - xs.sum / xs.length) ^ 2)).sum) / xs.length

/-- The specification's sequence of 30 simple daily returns
`(close[i] − close[i+1]) / close[i+1]` for `i = 0 .. 29` over the
date-descending closes. -/
def specReturns (closes : List ℚ) : List ℚ :=
  (List.range 30).map (fun i =>
    (closes.getD i 0 - closes.getD (i + 1) 0) / closes.getD (i + 1) 0)

/-- The specification's parsing rule for one fundamentals ratio: the decimal
parse of the input string, times the stated scale, when the field is present
and non-empty; null otherwise. -/
def specRatioField (input : Option String) (scale : ℚ) : Option ℚ :=
  match input with
  | none => none
  | some str => if str = "" then none else some (parseFloat str * scale)

/-- Forget the transformation timestamp of a stock metrics record. -/
def stripStockTimestamp (r : StockMetricsRecord) : StockMetricsRecord :=
  { r with transformedAt := "" }

/-- Forget the transformation timestamp of a market metrics record. -/
def stripMarketTimestamp (m : MarketMetricsRecord) : MarketMetricsRecord :=
  { m with transformedAt := "" }

/-! ## Concrete sample inputs for witnesses and counterexamples -/

/-- Sample series of `count` equity bars, dates `0 .. count−1`, the bar of date `d` closing at
`100 + d`. -/
def sampleBars (count : ℕ) : List (ℕ × StockBar) :=
  (List.range count).map (fun d =>
    (d, ⟨(100 : ℚ) + d, (100 : ℚ) + d, (100 : ℚ) + d, (100 : ℚ) + d, 1000⟩))

/-- An error-free equity series with `count` bars and an empty overview. -/
def sampleStockData (count : ℕ) : StockData where
  symbol := "AAPL"
  timeSeries := some (sampleBars count)
  overview := some emptyOverview
  error := none
  extractedAt := "t0"

/-- Sample series of `count` index bars, dates `0 .. count−1`, closing at `100 + d`. -/
def sampleMarketBars (count : ℕ) : List MarketBar :=
  (List.range count).map (fun d =>
    ⟨d, (100 : ℚ) + d, (100 : ℚ) + d, (100 : ℚ) + d, (100 : ℚ) + d, 1000⟩)

/-- An error-free index series with `count` bars. -/
def sampleMarketData (count : ℕ) : MarketData where
  index := "S&P500"
  historical := some (sampleMarketBars count)
  error := none
  extractedAt := "t0"

/-- A concrete overview payload mixing present, empty and absent fields. -/
def sampleOverview : Overview where
  MarketCapitalization := some "1000000000"
  PERatio := some "20"
  DividendYield := some "0.02"
  EPS := some "5"
  RevenueTTM := some ""
  GrossProfitTTM := none
  ProfitMargin := some "0.2"
  OperatingMarginTTM := some "0.25"
  ReturnOnAssetsTTM := none
  ReturnOnEquityTTM := some "0.15"
  DilutedEPSTTM := some "4.8"

/-- A one-bar equity series carrying `sampleOverview`. -/
def sampleStockDataOv : StockData where
  symbol := "AAPL"
  timeSeries := some (sampleBars 1)
  overview := some sampleOverview
  error := none
  extractedAt := "t0"

/-- A degenerate equity series carrying an upstream error. -/
def errSeries : StockData where
  symbol := "AAPL"
  timeSeries := none
  overview := none
  error := some "boom"
  extractedAt := "t0"

/-- A degenerate index series carrying an upstream error, in the exact shape
`fetchMarketIndexData` produces on failure. -/
def errMarket : MarketData where
  index := "S&P500"
  historical := none
  error := some "Failed to fetch S&P 500 data"
  extractedAt := "t0"

/-- A concrete non-error equity metrics record (all blocks present). -/
def sampleAAPLRecord : StockMetricsRecord where
  symbol := "AAPL"
  date := some 20000
  price := some ⟨100, 105, 99, 102, 1000000⟩
  priceChanges := some ⟨none, none, none, none, none, none⟩
  volatility := some ⟨none⟩
  fundamentals := some default
  error := none
  transformedAt := "2024-01-01T00:00:00.000Z"

/-- A concrete upstream behaviour that fails (network error) for the symbol
"MSFT" only. -/
def failMSFTNet : Network where
  timeSeriesResp := fun s =>
    if s == "MSFT" then .error "Network Error" else .ok ⟨none, some []⟩
  overviewResp := fun _ => .ok (some emptyOverview)
  marketResp := .ok (some [])

/-! # Theorems -/

/-! ## Properties of the sort model -/

theorem length_insertDescBy {α : Type} (key : α → ℕ) (x : α) (l : List α) :
    (insertDescBy key x l).length = l.length + 1 := by
  induction l with
  | nil => rfl
  | cons y ys ih =>
      simp only [insertDescBy]
      split
      · simp [ih]
      · simp

theorem length_sortDescBy {α : Type} (key : α → ℕ) (l : List α) :
    (sortDescBy key l).length = l.length := by
  induction l with
  | nil => rfl
  | cons x xs ih => simp [sortDescBy, length_insertDescBy, ih]

theorem sortDescBy_eq_nil_iff {α : Type} (key : α → ℕ) (l : List α) :
    sortDescBy key l = [] ↔ l = [] := by
  constructor
  · intro h
    have hl := length_sortDescBy key l
    rw [h] at hl
    exact List.length_eq_zero.mp hl.symm
  · intro h; rw [h]; rfl

theorem insertDescBy_perm {α : Type} (key : α → ℕ) (x : α) (l : List α) :
    (insertDescBy key x l).Perm (x :: l) := by
  induction l with
  | nil => exact List.Perm.refl _
  | cons y ys ih =>
      simp only [insertDescBy]
      split
      · exact (ih.cons y).trans (List.Perm.swap x y ys)
      · exact List.Perm.refl _

/-- The sort model permutes its input, so the sorted sequence has the same
bars as the raw one. -/
theorem sortDescBy_perm {α : Type} (key : α → ℕ) (l : List α) :
    (sortDescBy key l).Perm l := by
  induction l with
  | nil => exact List.Perm.refl _
  | cons x xs ih => exact (insertDescBy_perm key x _).trans (ih.cons x)

theorem insertDescBy_head_cases {α : Type} (key : α → ℕ) (x : α) (l : List α) :
    (insertDescBy key x l).head? = some x ∨ (insertDescBy key x l).head? = l.head? := by
  cases l with
  | nil => left; rfl
  | cons y ys =>
      simp only [insertDescBy]
      split
      · right; rfl
      · left; rfl

theorem insertDescBy_sorted {α : Type} (key : α → ℕ) (x : α) (l : List α)
    (h : l.Chain' (fun a b => key b ≤ key a)) :
    (insertDescBy key x l).Chain' (fun a b => key b ≤ key a) := by
  induction l with
  | nil => simp [insertDescBy]
  | cons y ys ih =>
      rw [List.chain'_cons'] at h
      obtain ⟨hy, hys⟩ := h
      simp only [insertDescBy]
      split
      · rename_i hlt
        rw [List.chain'_cons']
        refine ⟨?_, ih hys⟩
        intro b hb
        rcases insertDescBy_head_cases key x ys with hh | hh
        · rw [hh] at hb
          simp only [Option.mem_some_iff] at hb
          subst hb
          exact Nat.le_of_lt hlt
        · rw [hh] at hb
          exact hy b hb
      · rename_i hge
        rw [List.chain'_cons']
        refine ⟨?_, List.chain'_cons'.mpr ⟨hy, hys⟩⟩
        intro b hb
        simp only [List.head?_cons, Option.mem_some_iff] at hb
        subst hb
        exact Nat.le_of_not_lt hge

/-- The sort model indeed sorts descending by key. -/
theorem sortDescBy_sorted {α : Type} (key : α → ℕ) (l : List α) :
    (sortDescBy key l).Chain' (fun a b => key b ≤ key a) := by
  induction l with
  | nil => simp [sortDescBy]
  | cons x xs ih => exact insertDescBy_sorted key x _ ih

/-! ## C6 — the orchestrator never throws, never exits -/

/-- C6: for every behaviour of the extract, transform and load stages, the
orchestrator resolves with a structured result instead of propagating an
exception: `runETLPipeline` always returns `.ok`; when some stage fails the
result has `success := false` and carries that stage's error message, when
all stages succeed it has `success := true`; and the orchestrator's own
action trace never contains a `process.exit`. -/
theorem runETLPipeline_never_throws (st : PipelineStages) :
    ∃ res acts, runETLPipeline st = Except.ok (res, acts) ∧
      (∀ n, ProcessAction.exitProcess n ∉ acts) ∧
      res.error = firstFailure st ∧
      (res.success = true ↔ firstFailure st = none) := by
  cases hx : st.extractR with
  | error e =>
      refine ⟨{ success := false, message := none, error := some e },
              [.log "Starting ETL pipeline...", .log "Extracting data...",
               .logError ("Error in ETL pipeline: " ++ e)], ?_, ?_, ?_, ?_⟩
      · simp [runETLPipeline, hx]
      · intro n hn
        simp at hn
      · simp [firstFailure, hx]
      · simp [firstFailure, hx]
  | ok raw =>
      cases ht : st.transformR raw with
      | error e =>
          refine ⟨{ success := false, message := none, error := some e },
                  [.log "Starting ETL pipeline...", .log "Extracting data...",
                   .log "Transforming data...",
                   .logError ("Error in ETL pipeline: " ++ e)], ?_, ?_, ?_, ?_⟩
          · simp [runETLPipeline, hx, ht]
          · intro n hn
            simp at hn
          · simp [firstFailure, hx, ht]
          · simp [firstFailure, hx, ht]
      | ok td =>
          cases hl : st.loadR td with
          | error e =>
              refine ⟨{ success := false, message := none, error := some e },
                      [.log "Starting ETL pipeline...", .log "Extracting data...",
                       .log "Transforming data...", .log "Loading data into database...",
                       .logError ("Error in ETL pipeline: " ++ e)], ?_, ?_, ?_, ?_⟩
              · simp [runETLPipeline, hx, ht, hl]
              · intro n hn
                simp at hn
              · simp [firstFailure, hx, ht, hl]
              · simp [firstFailure, hx, ht, hl]
          | ok s =>
              refine ⟨{ success := true,
                        message := some "ETL pipeline completed successfully",
                        error := none },
                      [.log "Starting ETL pipeline...", .log "Extracting data...",
                       .log "Transforming data...", .log "Loading data into database...",
                       .log "ETL pipeline completed successfully!"], ?_, ?_, ?_, ?_⟩
              · simp [runETLPipeline, hx, ht, hl]
              · intro n hn
                simp at hn
              · simp [firstFailure, hx, ht, hl]
              · simp [firstFailure, hx, ht, hl]

/-! ## C10 — the loader's aggregate conserves counts -/

/-- Each loop iteration of `loadStockMetrics` records its stock in exactly
one of `success` / `errors`. -/
theorem loadStockStep_counts (ins : InsertBehavior StockRow)
    (st : List StockRow × StockLoadResults) (stock : StockMetricsRecord) :
    (loadStockStep ins st stock).2.success.length
        + (loadStockStep ins st stock).2.errors.length
      = st.2.success.length + st.2.errors.length + 1 := by
  unfold loadStockStep
  split
  · simp only [List.length_append, List.length_cons, List.length_nil]
    omega
  · split
    · simp only [List.length_append, List.length_cons, List.length_nil]
      omega
    · split
      · simp only [List.length_append, List.length_cons, List.length_nil]
        omega
      · simp only [List.length_append, List.length_cons, List.length_nil]
        omega

/-- Folding the per-record loop over a batch adds exactly the batch size to
the two counters together. -/
theorem loadStockMetrics_foldl_counts (ins : InsertBehavior StockRow)
    (stocks : List StockMetricsRecord) :
    ∀ st : List StockRow × StockLoadResults,
      (stocks.foldl (loadStockStep ins) st).2.success.length
          + (stocks.foldl (loadStockStep ins) st).2.errors.length
        = st.2.success.length + st.2.errors.length + stocks.length := by
  induction stocks with
  | nil => intro st; simp
  | cons s rest ih =>
      intro st
      rw [List.foldl_cons, ih, loadStockStep_counts]
      simp only [List.length_cons]
      omega

/-- C10: the loader's aggregate result conserves counts: every stock record
is counted exactly once, as loaded or errored, so `stocksLoaded +
stockErrors` is the number of input records; and the single market-indicator
slot always accounts for exactly one outcome, with `indicatorsLoaded ∈
\x7b0, 1\x7d`. -/
theorem load_counts_conserved (insS : InsertBehavior StockRow)
    (insM : InsertBehavior MarketRow) (dbS : List StockRow) (dbM : List MarketRow)
    (now : String) (td : TransformedData) :
    (load insS insM dbS dbM now td).2.stocksLoaded
        + (load insS insM dbS dbM now td).2.stockErrors = td.stockMetrics.length ∧
    (load insS insM dbS dbM now td).2.indicatorsLoaded
        + (load insS insM dbS dbM now td).2.indicatorErrors = 1 ∧
    (load insS insM dbS dbM now td).2.indicatorsLoaded ≤ 1 := by
  refine ⟨?_, ?_, ?_⟩
  · simpa [load, loadStockMetrics] using
      loadStockMetrics_foldl_counts insS td.stockMetrics (dbS, ⟨[], []⟩)
  · cases htd : td.marketIndicators with
    | none => simp [load, htd]
    | some mi =>
        cases hb : (loadMarketIndicators insM dbM (some mi)).2.success <;>
          simp [load, htd, hb]
  · cases htd : td.marketIndicators with
    | none => simp [load, htd]
    | some mi =>
        cases hb : (loadMarketIndicators insM dbM (some mi)).2.success <;>
          simp [load, htd, hb]

/-! ## C3 — re-loading the same record for the same key -/

/-- C3 (evidence for the code bug): loading `sampleAAPLRecord` into an empty
`stock_metrics` table succeeds and persists one row; re-running the very
same load against the resulting table still leaves exactly one row (the
`UNIQUE(symbol, date)` constraint prevents a duplicate), but the plain
`insert` of the already-present (symbol, date) key fails with a
uniqueness-violation error, so the second run counts the record as an
error — 0 loaded, 1 errored — instead of loading it without error as the
claim requires. -/
theorem loadStockMetrics_rerun_counted_as_error :
    (loadStockMetrics dbInsertStock [] [sampleAAPLRecord]).2.success.length = 1 ∧
    (loadStockMetrics dbInsertStock [] [sampleAAPLRecord]).1.length = 1 ∧
    (loadStockMetrics dbInsertStock
        (loadStockMetrics dbInsertStock [] [sampleAAPLRecord]).1
        [sampleAAPLRecord]).1.length = 1 ∧
    (loadStockMetrics dbInsertStock
        (loadStockMetrics dbInsertStock [] [sampleAAPLRecord]).1
        [sampleAAPLRecord]).2.success = [] ∧
    (loadStockMetrics dbInsertStock
        (loadStockMetrics dbInsertStock [] [sampleAAPLRecord]).1
        [sampleAAPLRecord]).2.errors
      = [("AAPL", "duplicate key value violates unique constraint")] := by
  refine ⟨rfl, rfl, rfl, rfl, rfl⟩

/-! ## C4 — fetch launch discipline of the extractor -/

/-- Every per-symbol fetch trace is one of three shapes, each beginning with
the symbol's own time-series request; a delay occurs only at the end of the
full success path. -/
theorem fetchStockData_trace_cases (net : Network) (now s : String) :
    (fetchStockData net now s).2 = [FetchEvent.requestStart s 0] ∨
    (fetchStockData net now s).2
      = [FetchEvent.requestStart s 0, FetchEvent.requestStart s 1] ∨
    (fetchStockData net now s).2
      = [FetchEvent.requestStart s 0, FetchEvent.requestStart s 1,
         FetchEvent.delayWait 1500] := by
  unfold fetchStockData
  cases hts : net.timeSeriesResp s with
  | error e => simp
  | ok resp =>
      cases herr : jsTruthy resp.errorMessage
      · cases hov : net.overviewResp s with
        | error e => simp [herr, hov]
        | ok ov => simp [herr, hov]
      · simp [herr]

/-- The synchronous prefix of every per-symbol fetch is exactly its first
request. -/
theorem fetchStockData_launch (net : Network) (now s : String) :
    (fetchStockData net now s).2.take 1 = [FetchEvent.requestStart s 0] := by
  rcases fetchStockData_trace_cases net now s with h | h | h <;> simp [h]

theorem flatten_map_singleton {α β : Type} (f : α → β) (l : List α) :
    (l.map (fun a => [f a])).flatten = l.map f := by
  induction l with
  | nil => rfl
  | cons a as ih => simp [ih]

/-- C4 amended: in every extraction run the per-equity fetches are all
started eagerly, in configuration order, by `map`, before `Promise.all`
awaits any of them — the launch phase issues exactly one first upstream
request per symbol and performs no blocking delay at all between successive
launches.  The fixed 1500 ms wait happens inside each individual fetch,
after that fetch's own two requests, and only on its success path. -/
theorem extract_launches_eager_unthrottled (net : Network) (now : String)
    (symbols : List String) :
    extractLaunchEvents net now symbols
        = symbols.map (fun s => FetchEvent.requestStart s 0) ∧
    hasDelay (extractLaunchEvents net now symbols) = false ∧
    ∀ s : String,
      ((fetchStockData net now s).2).head? = some (FetchEvent.requestStart s 0) ∧
      ((fetchStockData net now s).2 = [FetchEvent.requestStart s 0] ∨
        (fetchStockData net now s).2
          = [FetchEvent.requestStart s 0, FetchEvent.requestStart s 1] ∨
        (fetchStockData net now s).2
          = [FetchEvent.requestStart s 0, FetchEvent.requestStart s 1,
             FetchEvent.delayWait 1500]) := by
  have hmap : extractLaunchEvents net now symbols
      = symbols.map (fun s => FetchEvent.requestStart s 0) := by
    unfold extractLaunchEvents
    simp only [fetchStockData_launch]
    exact flatten_map_singleton (fun s => FetchEvent.requestStart s 0) symbols
  have hnod : hasDelay (symbols.map (fun s => FetchEvent.requestStart s 0)) = false := by
    unfold hasDelay
    induction symbols with
    | nil => rfl
    | cons s rest ih => simp
  refine ⟨hmap, hmap ▸ hnod, fun s => ⟨?_, fetchStockData_trace_cases net now s⟩⟩
  rcases fetchStockData_trace_cases net now s with h | h | h <;> simp [h]

/-- C4 counterexample: extracting the two equities AAPL and MSFT performs no
blocking delay whatsoever during the fetch launch sequence, refuting "a
fixed minimum inter-request delay as a blocking wait between each pair of
successive fetches" (which requires at least one delay once two fetches are
launched). -/
theorem extract_not_throttled_counterexample :
    ¬ LaunchesThrottled emptyNet "2024-01-01T00:00:00.000Z" ["AAPL", "MSFT"] := by
  unfold LaunchesThrottled
  decide

/-! ## C7 — per-item failure isolation in the extractor -/

/-- C7: the batch result contains exactly one RawSeries per requested
identifier, in order, each being precisely the per-symbol fetch result; a
fetch result carries its own symbol and the extraction timestamp, carries
bars and an overview exactly when it has no error (so a failed item is
degenerate: identifier, error message and timestamp only); the result for a
symbol depends only on the upstream behaviour for that symbol, so a failure
fetching one equity cannot prevent fetching the others; and a time-series
network failure yields exactly the degenerate series with that error
message. -/
theorem extract_partial_failure_isolation :
    (∀ (net : Network) (now : String) (symbols : List String),
        ((extract net now symbols).stockData).length = symbols.length) ∧
    (∀ (net : Network) (now : String) (symbols : List String) (i : ℕ),
        i < symbols.length →
        ((extract net now symbols).stockData.getD i default)
          = (fetchStockData net now (symbols.getD i "")).1) ∧
    (∀ (net : Network) (now s : String),
        ((fetchStockData net now s).1).symbol = s ∧
        ((fetchStockData net now s).1).extractedAt = now ∧
        (((fetchStockData net now s).1).error.isSome →
          ((fetchStockData net now s).1).timeSeries = none ∧
          ((fetchStockData net now s).1).overview = none) ∧
        (((fetchStockData net now s).1).error = none →
          ((fetchStockData net now s).1).timeSeries.isSome ∧
          ((fetchStockData net now s).1).overview.isSome)) ∧
    (∀ (net net' : Network) (now s : String),
        net.timeSeriesResp s = net'.timeSeriesResp s →
        net.overviewResp s = net'.overviewResp s →
        fetchStockData net now s = fetchStockData net' now s) ∧
    (∀ (net : Network) (now s e : String),
        net.timeSeriesResp s = Except.error e →
        (fetchStockData net now s).1
          = { symbol := s, timeSeries := none, overview := none, error := some e,
              extractedAt := now }) := by
  refine ⟨?_, ?_, ?_, ?_, ?_⟩
  · intro net now symbols
    simp [extract]
  · intro net now symbols i hi
    have hi' : i < (symbols.map (fun s => (fetchStockData net now s).1)).length := by
      simpa using hi
    show (symbols.map (fun s => (fetchStockData net now s).1)).getD i default = _
    rw [List.getD_eq_getElem _ _ hi', List.getElem_map, ← List.getD_eq_getElem _ _ hi]
  · intro net now s
    unfold fetchStockData
    cases hts : net.timeSeriesResp s with
    | error e => simp
    | ok resp =>
        cases herr : jsTruthy resp.errorMessage
        · cases hov : net.overviewResp s with
          | error e => simp [herr]
          | ok ov => simp [herr]
        · simp [herr]
  · intro net net' now s h1 h2
    unfold fetchStockData
    rw [h1, h2]
  · intro net now s e h
    unfold fetchStockData
    rw [h]

/-- Witness for C7 at a concrete three-equity batch whose second symbol
fails with a network error. -/
theorem extract_partial_failure_isolation_witness :
    ((extract failMSFTNet "t0" ["AAPL", "MSFT", "GOOGL"]).stockData).length = 3 ∧
    ((extract failMSFTNet "t0" ["AAPL", "MSFT", "GOOGL"]).stockData.getD 1 default)
      = (fetchStockData failMSFTNet "t0" "MSFT").1 ∧
    (fetchStockData failMSFTNet "t0" "MSFT").1
      = { symbol := "MSFT", timeSeries := none, overview := none,
          error := some "Network Error", extractedAt := "t0" } :=
  ⟨extract_partial_failure_isolation.1 failMSFTNet "t0" ["AAPL", "MSFT", "GOOGL"],
   extract_partial_failure_isolation.2.1 failMSFTNet "t0" ["AAPL", "MSFT", "GOOGL"] 1
     (by decide),
   extract_partial_failure_isolation.2.2.2.2 failMSFTNet "t0" "MSFT" "Network Error"
     rfl⟩

/-! ## C5 — degenerate records, exactly on error or empty input -/

theorem jsTruthy_true_isSome (o : Option String) (h : jsTruthy o = true) :
    o.isSome := by
  cases o with
  | none => simp [jsTruthy] at h
  | some s => rfl

/-- C5: the Metric Engine produces a degenerate record — identifier, an
error message and a transformation timestamp, with no
date/price/price-change/volatility/fundamentals fields — exactly when the
input carries an error or its bar sequence is empty.  The error case is
stated for an arbitrary input with a truthy error (in particular the
extractor's actual degenerate series, whose bar and overview fields are
absent; the source short-circuits before reading them) and passes the input
error through unchanged; the no-error case yields the degenerate record
with the distinct no-data message exactly when the bars are empty.  Stated
for both engine functions. -/
theorem metricEngine_degenerate_iff :
    (∀ (now : String) (s : StockData),
        (jsTruthy s.error = true →
          calculateStockMetrics now s
            = some { symbol := s.symbol, date := none, price := none,
                     priceChanges := none, volatility := none, fundamentals := none,
                     error := s.error, transformedAt := now }) ∧
        (∀ (ts : List (ℕ × StockBar)) (ov : Overview),
          s.timeSeries = some ts → s.overview = some ov → jsTruthy s.error = false →
          ∃ rec, calculateStockMetrics now s = some rec ∧
            rec.symbol = s.symbol ∧ rec.transformedAt = now ∧
            ((rec.date = none ∧ rec.price = none ∧ rec.priceChanges = none ∧
                rec.volatility = none ∧ rec.fundamentals = none ∧ rec.error.isSome)
              ↔ ts = []) ∧
            (ts = [] → rec.error = some "No time series data available") ∧
            (ts ≠ [] → rec.error = none))) ∧
    (∀ (now : String) (m : MarketData),
        (jsTruthy m.error = true →
          calculateMarketIndicators now m
            = some { index := m.index, date := none, price := none,
                     priceChanges := none, volatility := none,
                     error := m.error, transformedAt := now }) ∧
        (∀ (hist : List MarketBar),
          m.historical = some hist → jsTruthy m.error = false →
          ∃ rec, calculateMarketIndicators now m = some rec ∧
            rec.index = m.index ∧ rec.transformedAt = now ∧
            ((rec.date = none ∧ rec.price = none ∧ rec.priceChanges = none ∧
                rec.volatility = none ∧ rec.error.isSome)
              ↔ hist = []) ∧
            (hist = [] → rec.error = some "No historical data available") ∧
            (hist ≠ [] → rec.error = none))) := by
  constructor
  · intro now s
    constructor
    · intro herr
      simp [calculateStockMetrics, herr]
    · intro ts ov hts hov herr'
      rcases hsl : sortDescBy Prod.fst ts with _ | ⟨latest, rest⟩
      · have hempty : ts = [] := (sortDescBy_eq_nil_iff Prod.fst ts).mp hsl
        have heq : calculateStockMetrics now s
            = some { symbol := s.symbol, date := none, price := none,
                     priceChanges := none, volatility := none, fundamentals := none,
                     error := some "No time series data available",
                     transformedAt := now } := by
          simp [calculateStockMetrics, herr', hts, hsl]
        refine ⟨_, heq, rfl, rfl, ?_, fun _ => rfl, ?_⟩
        · simp [hempty]
        · intro h; exact absurd hempty h
      · have hne : ts ≠ [] := by
          intro h
          rw [h] at hsl
          exact List.cons_ne_nil latest rest hsl.symm
        have heq : calculateStockMetrics now s
            = some (stockRecordOfEntries now s.symbol ov latest (latest :: rest)) := by
          simp [calculateStockMetrics, herr', hts, hov, hsl]
        refine ⟨_, heq, rfl, rfl, ?_, ?_, fun _ => rfl⟩
        · simp [stockRecordOfEntries, hne]
        · intro h; exact absurd h hne
  · intro now m
    constructor
    · intro herr
      simp [calculateMarketIndicators, herr]
    · intro hist hh herr'
      rcases hsl : sortDescBy MarketBar.date hist with _ | ⟨latest, rest⟩
      · have hempty : hist = [] := (sortDescBy_eq_nil_iff MarketBar.date hist).mp hsl
        have heq : calculateMarketIndicators now m
            = some { index := m.index, date := none, price := none, priceChanges := none,
                     volatility := none, error := some "No historical data available",
                     transformedAt := now } := by
          simp [calculateMarketIndicators, herr', hh, hsl]
        refine ⟨_, heq, rfl, rfl, ?_, fun _ => rfl, ?_⟩
        · simp [hempty]
        · intro h; exact absurd hempty h
      · have hne : hist ≠ [] := by
          intro h
          rw [h] at hsl
          exact List.cons_ne_nil latest rest hsl.symm
        have heq : calculateMarketIndicators now m
            = some (marketRecordOfBars now m.index latest (latest :: rest)) := by
          simp [calculateMarketIndicators, herr', hh, hsl]
        refine ⟨_, heq, rfl, rfl, ?_, ?_, fun _ => rfl⟩
        · simp [marketRecordOfBars, hne]
        · intro h; exact absurd h hne

/-- Witness for C5 at the extractor-shaped degenerate error series (bars and
overview absent) for both engines, plus a concrete empty equity series and
a concrete one-bar index series for the no-error case. -/
theorem metricEngine_degenerate_iff_witness :
    calculateStockMetrics "t1" errSeries
      = some { symbol := "AAPL", date := none, price := none, priceChanges := none,
               volatility := none, fundamentals := none, error := some "boom",
               transformedAt := "t1" } ∧
    (∃ rec, calculateStockMetrics "t1" (sampleStockData 0) = some rec ∧
      rec.symbol = (sampleStockData 0).symbol ∧ rec.transformedAt = "t1" ∧
      ((rec.date = none ∧ rec.price = none ∧ rec.priceChanges = none ∧
          rec.volatility = none ∧ rec.fundamentals = none ∧ rec.error.isSome)
        ↔ sampleBars 0 = []) ∧
      (sampleBars 0 = [] → rec.error = some "No time series data available") ∧
      (sampleBars 0 ≠ [] → rec.error = none)) ∧
    calculateMarketIndicators "t1" errMarket
      = some { index := "S&P500", date := none, price := none, priceChanges := none,
               volatility := none, error := some "Failed to fetch S&P 500 data",
               transformedAt := "t1" } ∧
    (∃ rec, calculateMarketIndicators "t1" (sampleMarketData 1) = some rec ∧
      rec.index = (sampleMarketData 1).index ∧ rec.transformedAt = "t1" ∧
      ((rec.date = none ∧ rec.price = none ∧ rec.priceChanges = none ∧
          rec.volatility = none ∧ rec.error.isSome)
        ↔ sampleMarketBars 1 = []) ∧
      (sampleMarketBars 1 = [] → rec.error = some "No historical data available") ∧
      (sampleMarketBars 1 ≠ [] → rec.error = none)) :=
  ⟨(metricEngine_degenerate_iff.1 "t1" errSeries).1 rfl,
   (metricEngine_degenerate_iff.1 "t1" (sampleStockData 0)).2 (sampleBars 0)
     emptyOverview rfl rfl rfl,
   (metricEngine_degenerate_iff.2 "t1" errMarket).1 rfl,
   (metricEngine_degenerate_iff.2 "t1" (sampleMarketData 1)).2 (sampleMarketBars 1)
     rfl rfl⟩

/-! ## C1 — k-day change and percent-change fields -/

theorem stock_dayData_map (entries : List (ℕ × StockBar)) (k : ℕ) (f : StockBar → ℚ) :
    ((if k < entries.length then (entries[k]?).map Prod.snd else none).map f)
      = (if k < entries.length then some (f (entries.getD k (0, default)).2) else none) := by
  by_cases h : k < entries.length
  · rw [if_pos h, if_pos h, List.getElem?_eq_getElem h, List.getD_eq_getElem _ _ h]
    rfl
  · rw [if_neg h, if_neg h]
    rfl

theorem market_dayData_map (sorted : List MarketBar) (k : ℕ) (f : MarketBar → ℚ) :
    ((if k < sorted.length then sorted[k]? else none).map f)
      = (if k < sorted.length then some (f (sorted.getD k default)) else none) := by
  by_cases h : k < sorted.length
  · rw [if_pos h, if_pos h, List.getElem?_eq_getElem h, List.getD_eq_getElem _ _ h]
    rfl
  · rw [if_neg h, if_neg h]
    rfl

/-- C1: for every error-free series with `n` bars, the k-day absolute and
percent change fields (k ∈ \x7b7, 30, 90\x7d) are non-null iff `n > k` — and
when non-null, the comparison bar is the bar at index k of the
date-descending sequence, the absolute change is the reference (index 0)
close minus the comparison close, and the percent change is the absolute
change divided by the comparison close times 100; when `n ≤ k` the fields
are null, and the record carries no error.  Stated for both engine
functions. -/
theorem metricEngine_kday_changes :
    (∀ (now : String) (s : StockData) (ts : List (ℕ × StockBar)) (ov : Overview),
        s.timeSeries = some ts → s.overview = some ov →
        jsTruthy s.error = false → ts ≠ [] →
        ∃ rec, calculateStockMetrics now s = some rec ∧ rec.error = none ∧
          rec.priceChanges = some
            { change7d := if 7 < ts.length then
                some (stockCloseAt (sortDescBy Prod.fst ts) 0
                  - stockCloseAt (sortDescBy Prod.fst ts) 7) else none
              change30d := if 30 < ts.length then
                some (stockCloseAt (sortDescBy Prod.fst ts) 0
                  - stockCloseAt (sortDescBy Prod.fst ts) 30) else none
              change90d := if 90 < ts.length then
                some (stockCloseAt (sortDescBy Prod.fst ts) 0
                  - stockCloseAt (sortDescBy Prod.fst ts) 90) else none
              percentChange7d := if 7 < ts.length then
                some ((stockCloseAt (sortDescBy Prod.fst ts) 0
                    - stockCloseAt (sortDescBy Prod.fst ts) 7)
                  / stockCloseAt (sortDescBy Prod.fst ts) 7 * 100) else none
              percentChange30d := if 30 < ts.length then
                some ((stockCloseAt (sortDescBy Prod.fst ts) 0
                    - stockCloseAt (sortDescBy Prod.fst ts) 30)
                  / stockCloseAt (sortDescBy Prod.fst ts) 30 * 100) else none
              percentChange90d := if 90 < ts.length then
                some ((stockCloseAt (sortDescBy Prod.fst ts) 0
                    - stockCloseAt (sortDescBy Prod.fst ts) 90)
                  / stockCloseAt (sortDescBy Prod.fst ts) 90 * 100) else none }) ∧
    (∀ (now : String) (m : MarketData) (hist : List MarketBar),
        m.historical = some hist → jsTruthy m.error = false → hist ≠ [] →
        ∃ rec, calculateMarketIndicators now m = some rec ∧ rec.error = none ∧
          rec.priceChanges = some
            { change7d := if 7 < hist.length then
                some (marketCloseAt (sortDescBy MarketBar.date hist) 0
                  - marketCloseAt (sortDescBy MarketBar.date hist) 7) else none
              change30d := if 30 < hist.length then
                some (marketCloseAt (sortDescBy MarketBar.date hist) 0
                  - marketCloseAt (sortDescBy MarketBar.date hist) 30) else none
              change90d := if 90 < hist.length then
                some (marketCloseAt (sortDescBy MarketBar.date hist) 0
                  - marketCloseAt (sortDescBy MarketBar.date hist) 90) else none
              percentChange7d := if 7 < hist.length then
                some ((marketCloseAt (sortDescBy MarketBar.date hist) 0
                    - marketCloseAt (sortDescBy MarketBar.date hist) 7)
                  / marketCloseAt (sortDescBy MarketBar.date hist) 7 * 100) else none
              percentChange30d := if 30 < hist.length then
                some ((marketCloseAt (sortDescBy MarketBar.date hist) 0
                    - marketCloseAt (sortDescBy MarketBar.date hist) 30)
                  / marketCloseAt (sortDescBy MarketBar.date hist) 30 * 100) else none
              percentChange90d := if 90 < hist.length then
                some ((marketCloseAt (sortDescBy MarketBar.date hist) 0
                    - marketCloseAt (sortDescBy MarketBar.date hist) 90)
                  / marketCloseAt (sortDescBy MarketBar.date hist) 90 * 100) else none }) := by
  constructor
  · intro now s ts ov hts hov herr hne
    rcases hsl : sortDescBy Prod.fst ts with _ | ⟨latest, rest⟩
    · exact absurd ((sortDescBy_eq_nil_iff Prod.fst ts).mp hsl) hne
    · have hlen : (latest :: rest).length = ts.length := by
        rw [← hsl, length_sortDescBy]
      have heq : calculateStockMetrics now s
          = some (stockRecordOfEntries now s.symbol ov latest (latest :: rest)) := by
        simp [calculateStockMetrics, herr, hts, hov, hsl]
      refine ⟨_, heq, rfl, ?_⟩
      rw [← hlen]
      simp only [stockRecordOfEntries, Option.some.injEq, ChangesBlock.mk.injEq]
      exact ⟨stock_dayData_map _ 7 _, stock_dayData_map _ 30 _, stock_dayData_map _ 90 _,
             stock_dayData_map _ 7 _, stock_dayData_map _ 30 _, stock_dayData_map _ 90 _⟩
  · intro now m hist hh herr hne
    rcases hsl : sortDescBy MarketBar.date hist with _ | ⟨latest, rest⟩
    · exact absurd ((sortDescBy_eq_nil_iff MarketBar.date hist).mp hsl) hne
    · have hlen : (latest :: rest).length = hist.length := by
        rw [← hsl, length_sortDescBy]
      have heq : calculateMarketIndicators now m
          = some (marketRecordOfBars now m.index latest (latest :: rest)) := by
        simp [calculateMarketIndicators, herr, hh, hsl]
      refine ⟨_, heq, rfl, ?_⟩
      rw [← hlen]
      simp only [marketRecordOfBars, Option.some.injEq, ChangesBlock.mk.injEq]
      exact ⟨market_dayData_map _ 7 _, market_dayData_map _ 30 _, market_dayData_map _ 90 _,
             market_dayData_map _ 7 _, market_dayData_map _ 30 _, market_dayData_map _ 90 _⟩

/-- Witness for C1 at a concrete 8-bar equity series and a concrete 8-bar
index series (the 7-day fields become non-null, the 30/90-day fields
null). -/
theorem metricEngine_kday_changes_witness :
    (∃ rec, calculateStockMetrics "t1" (sampleStockData 8) = some rec ∧
      rec.error = none ∧
      rec.priceChanges = some
        { change7d := if 7 < (sampleBars 8).length then
            some (stockCloseAt (sortDescBy Prod.fst (sampleBars 8)) 0
              - stockCloseAt (sortDescBy Prod.fst (sampleBars 8)) 7) else none
          change30d := if 30 < (sampleBars 8).length then
            some (stockCloseAt (sortDescBy Prod.fst (sampleBars 8)) 0
              - stockCloseAt (sortDescBy Prod.fst (sampleBars 8)) 30) else none
          change90d := if 90 < (sampleBars 8).length then
            some (stockCloseAt (sortDescBy Prod.fst (sampleBars 8)) 0
              - stockCloseAt (sortDescBy Prod.fst (sampleBars 8)) 90) else none
          percentChange7d := if 7 < (sampleBars 8).length then
            some ((stockCloseAt (sortDescBy Prod.fst (sampleBars 8)) 0
                - stockCloseAt (sortDescBy Prod.fst (sampleBars 8)) 7)
              / stockCloseAt (sortDescBy Prod.fst (sampleBars 8)) 7 * 100) else none
          percentChange30d := if 30 < (sampleBars 8).length then
            some ((stockCloseAt (sortDescBy Prod.fst (sampleBars 8)) 0
                - stockCloseAt (sortDescBy Prod.fst (sampleBars 8)) 30)
              / stockCloseAt (sortDescBy Prod.fst (sampleBars 8)) 30 * 100) else none
          percentChange90d := if 90 < (sampleBars 8).length then
            some ((stockCloseAt (sortDescBy Prod.fst (sampleBars 8)) 0
                - stockCloseAt (sortDescBy Prod.fst (sampleBars 8)) 90)
              / stockCloseAt (sortDescBy Prod.fst (sampleBars 8)) 90 * 100) else none }) ∧
    (∃ rec, calculateMarketIndicators "t1" (sampleMarketData 8) = some rec ∧
      rec.error = none ∧
      rec.priceChanges = some
        { change7d := if 7 < (sampleMarketBars 8).length then
            some (marketCloseAt (sortDescBy MarketBar.date (sampleMarketBars 8)) 0
              - marketCloseAt (sortDescBy MarketBar.date (sampleMarketBars 8)) 7) else none
          change30d := if 30 < (sampleMarketBars 8).length then
            some (marketCloseAt (sortDescBy MarketBar.date (sampleMarketBars 8)) 0
              - marketCloseAt (sortDescBy MarketBar.date (sampleMarketBars 8)) 30) else none
          change90d := if 90 < (sampleMarketBars 8).length then
            some (marketCloseAt (sortDescBy MarketBar.date (sampleMarketBars 8)) 0
              - marketCloseAt (sortDescBy MarketBar.date (sampleMarketBars 8)) 90) else none
          percentChange7d := if 7 < (sampleMarketBars 8).length then
            some ((marketCloseAt (sortDescBy MarketBar.date (sampleMarketBars 8)) 0
                - marketCloseAt (sortDescBy MarketBar.date (sampleMarketBars 8)) 7)
              / marketCloseAt (sortDescBy MarketBar.date (sampleMarketBars 8)) 7 * 100)
            else none
          percentChange30d := if 30 < (sampleMarketBars 8).length then
            some ((marketCloseAt (sortDescBy MarketBar.date (sampleMarketBars 8)) 0
                - marketCloseAt (sortDescBy MarketBar.date (sampleMarketBars 8)) 30)
              / marketCloseAt (sortDescBy MarketBar.date (sampleMarketBars 8)) 30 * 100)
            else none
          percentChange90d := if 90 < (sampleMarketBars 8).length then
            some ((marketCloseAt (sortDescBy MarketBar.date (sampleMarketBars 8)) 0
                - marketCloseAt (sortDescBy MarketBar.date (sampleMarketBars 8)) 90)
              / marketCloseAt (sortDescBy MarketBar.date (sampleMarketBars 8)) 90 * 100)
            else none }) :=
  ⟨metricEngine_kday_changes.1 "t1" (sampleStockData 8) (sampleBars 8) emptyOverview
     rfl rfl rfl (by decide),
   metricEngine_kday_changes.2 "t1" (sampleMarketData 8) (sampleMarketBars 8)
     rfl rfl (by decide)⟩

/-! ## C8 — fundamentals parsing and scaling -/

theorem numField_eq_spec (o : Option String) : numField o = specRatioField o 1 := by
  cases o with
  | none => rfl
  | some s => simp only [numField, specRatioField, mul_one, beq_iff_eq]

theorem pctField_eq_spec (o : Option String) : pctField o = specRatioField o 100 := by
  cases o with
  | none => rfl
  | some s => simp only [pctField, specRatioField, beq_iff_eq]

/-- C8: for an error-free equity series with at least one bar, each named
ratio field of the fundamentals block is the decimal parse of the
corresponding input string when that string is present and non-empty, and
null otherwise; the five fraction-valued ratios (dividend yield, profit
margin, operating margin, return on assets, return on equity) are
additionally multiplied by 100, while market cap, P/E, EPS, revenue, gross
profit and diluted EPS pass through unscaled. -/
theorem stockMetrics_fundamentals_parsing (now : String) (s : StockData)
    (ts : List (ℕ × StockBar)) (ov : Overview)
    (hts : s.timeSeries = some ts) (hov : s.overview = some ov)
    (herr : jsTruthy s.error = false) (hne : ts ≠ []) :
    ∃ rec fb, calculateStockMetrics now s = some rec ∧ rec.fundamentals = some fb ∧
      fb.marketCap = specRatioField ov.MarketCapitalization 1 ∧
      fb.peRatio = specRatioField ov.PERatio 1 ∧
      fb.dividendYield = specRatioField ov.DividendYield 100 ∧
      fb.eps = specRatioField ov.EPS 1 ∧
      fb.revenue = specRatioField ov.RevenueTTM 1 ∧
      fb.grossProfit = specRatioField ov.GrossProfitTTM 1 ∧
      fb.profitMargin = specRatioField ov.ProfitMargin 100 ∧
      fb.operatingMargin = specRatioField ov.OperatingMarginTTM 100 ∧
      fb.roa = specRatioField ov.ReturnOnAssetsTTM 100 ∧
      fb.roe = specRatioField ov.ReturnOnEquityTTM 100 ∧
      fb.dilutedEPS = specRatioField ov.DilutedEPSTTM 1 := by
  rcases hsl : sortDescBy Prod.fst ts with _ | ⟨latest, rest⟩
  · exact absurd ((sortDescBy_eq_nil_iff Prod.fst ts).mp hsl) hne
  · have heq : calculateStockMetrics now s
        = some (stockRecordOfEntries now s.symbol ov latest (latest :: rest)) := by
      simp [calculateStockMetrics, herr, hts, hov, hsl]
    exact ⟨_, _, heq, rfl, numField_eq_spec _, numField_eq_spec _, pctField_eq_spec _,
      numField_eq_spec _, numField_eq_spec _, numField_eq_spec _, pctField_eq_spec _,
      pctField_eq_spec _, pctField_eq_spec _, pctField_eq_spec _, numField_eq_spec _⟩

/-- Witness for C8 at a one-bar series carrying `sampleOverview`. -/
theorem stockMetrics_fundamentals_parsing_witness :
    ∃ rec fb, calculateStockMetrics "t1" sampleStockDataOv = some rec ∧
      rec.fundamentals = some fb ∧
      fb.marketCap = specRatioField sampleOverview.MarketCapitalization 1 ∧
      fb.peRatio = specRatioField sampleOverview.PERatio 1 ∧
      fb.dividendYield = specRatioField sampleOverview.DividendYield 100 ∧
      fb.eps = specRatioField sampleOverview.EPS 1 ∧
      fb.revenue = specRatioField sampleOverview.RevenueTTM 1 ∧
      fb.grossProfit = specRatioField sampleOverview.GrossProfitTTM 1 ∧
      fb.profitMargin = specRatioField sampleOverview.ProfitMargin 100 ∧
      fb.operatingMargin = specRatioField sampleOverview.OperatingMarginTTM 100 ∧
      fb.roa = specRatioField sampleOverview.ReturnOnAssetsTTM 100 ∧
      fb.roe = specRatioField sampleOverview.ReturnOnEquityTTM 100 ∧
      fb.dilutedEPS = specRatioField sampleOverview.DilutedEPSTTM 1 :=
  stockMetrics_fundamentals_parsing "t1" sampleStockDataOv (sampleBars 1) sampleOverview
    rfl rfl rfl (by decide)

/-! ## C2 — 30-day annualized volatility -/

theorem foldl_add_eq_sum (l : List ℚ) : ∀ init : ℚ, l.foldl (· + ·) init = init + l.sum := by
  induction l with
  | nil => intro init; simp
  | cons x xs ih =>
      intro init
      rw [List.foldl_cons, ih, List.sum_cons, add_assoc]

theorem filterMap_guard_eq_map {α β : Type} (p : α → Prop) [DecidablePred p] (f : α → β) :
    ∀ (l : List α), (∀ a ∈ l, p a) →
      (l.filterMap (fun a => if p a then some (f a) else none)) = l.map f := by
  intro l
  induction l with
  | nil => intro _; rfl
  | cons a as ih =>
      intro h
      have hpa : p a := h a (List.mem_cons_self a as)
      simp only [List.filterMap_cons, if_pos hpa, List.map_cons]
      rw [ih (fun x hx => h x (List.mem_cons_of_mem a hx))]

/-- With more than 30 closes available, the guarded return loop produces
exactly the specification's 30 returns. -/
theorem dailyReturns_eq_specReturns (closes : List ℚ) (h : 30 < closes.length) :
    dailyReturns closes = specReturns closes := by
  unfold dailyReturns specReturns
  exact filterMap_guard_eq_map (fun i => i + 1 < closes.length)
    (fun i => (closes.getD i 0 - closes.getD (i + 1) 0) / closes.getD (i + 1) 0)
    (List.range 30)
    (fun i hi => by
      have := List.mem_range.mp hi
      omega)

theorem specReturns_length (closes : List ℚ) : (specReturns closes).length = 30 := by
  simp [specReturns]

theorem volatility30dOf_eq_none_iff (closes : List ℚ) :
    volatility30dOf closes = none ↔ closes.length ≤ 30 := by
  unfold volatility30dOf
  by_cases h : 30 < closes.length
  · rw [if_pos h]
    constructor
    · intro hc
      exact absurd hc (Option.some_ne_none _)
    · intro hc
      exact absurd hc (by omega)
  · rw [if_neg h]
    constructor
    · intro _
      omega
    · intro _
      rfl

/-- With more than 30 closes the computed volatility is the population
standard deviation of the 30 spec returns, annualized by `sqrt 252` and
expressed as a percentage. -/
theorem volatility30dOf_eq_spec (closes : List ℚ) (h : 30 < closes.length) :
    volatility30dOf closes
      = some (Real.sqrt ((popVariance (specReturns closes) : ℚ) : ℝ)
          * Real.sqrt 252 * 100) := by
  unfold volatility30dOf
  rw [if_pos h, dailyReturns_eq_specReturns closes h]
  simp only [foldl_add_eq_sum, zero_add, popVariance]

/-- C2: for every error-free series with `n` bars, the 30-day volatility is
null iff `n ≤ 30`; when `n > 30` it equals the population standard deviation
(sum of squared deviations over the count) of exactly 30 simple daily
returns `(close[i] − close[i+1]) / close[i+1]`, i = 0..29, over the
date-descending closes, multiplied by `sqrt 252` and by 100.  Stated for
both engine functions. -/
theorem metricEngine_volatility :
    (∀ (now : String) (s : StockData) (ts : List (ℕ × StockBar)) (ov : Overview),
        s.timeSeries = some ts → s.overview = some ov →
        jsTruthy s.error = false → ts ≠ [] →
        ∃ rec vb, calculateStockMetrics now s = some rec ∧ rec.volatility = some vb ∧
          (vb.volatility30d = none ↔ ts.length ≤ 30) ∧
          (30 < ts.length →
            (specReturns ((sortDescBy Prod.fst ts).map (fun e => e.2.barClose))).length
                = 30 ∧
            vb.volatility30d = some (Real.sqrt
                ((popVariance (specReturns
                  ((sortDescBy Prod.fst ts).map (fun e => e.2.barClose))) : ℚ) : ℝ)
              * Real.sqrt 252 * 100))) ∧
    (∀ (now : String) (m : MarketData) (hist : List MarketBar),
        m.historical = some hist → jsTruthy m.error = false → hist ≠ [] →
        ∃ rec vb, calculateMarketIndicators now m = some rec ∧ rec.volatility = some vb ∧
          (vb.volatility30d = none ↔ hist.length ≤ 30) ∧
          (30 < hist.length →
            (specReturns ((sortDescBy MarketBar.date hist).map (fun b => b.barClose))).length
                = 30 ∧
            vb.volatility30d = some (Real.sqrt
                ((popVariance (specReturns
                  ((sortDescBy MarketBar.date hist).map (fun b => b.barClose))) : ℚ) : ℝ)
              * Real.sqrt 252 * 100))) := by
  constructor
  · intro now s ts ov hts hov herr hne
    rcases hsl : sortDescBy Prod.fst ts with _ | ⟨latest, rest⟩
    · exact absurd ((sortDescBy_eq_nil_iff Prod.fst ts).mp hsl) hne
    · have hlen : (latest :: rest).length = ts.length := by
        rw [← hsl, length_sortDescBy]
      have hclen : ((latest :: rest).map (fun e => e.2.barClose)).length = ts.length := by
        rw [List.length_map, hlen]
      have heq : calculateStockMetrics now s
          = some (stockRecordOfEntries now s.symbol ov latest (latest :: rest)) := by
        simp [calculateStockMetrics, herr, hts, hov, hsl]
      refine ⟨_, _, heq, rfl, ?_, ?_⟩
      · have hiff :=
          volatility30dOf_eq_none_iff ((latest :: rest).map (fun e => e.2.barClose))
        rw [hclen] at hiff
        exact hiff
      · intro h30
        exact ⟨specReturns_length _,
          volatility30dOf_eq_spec _ (by rw [hclen]; exact h30)⟩
  · intro now m hist hh herr hne
    rcases hsl : sortDescBy MarketBar.date hist with _ | ⟨latest, rest⟩
    · exact absurd ((sortDescBy_eq_nil_iff MarketBar.date hist).mp hsl) hne
    · have hlen : (latest :: rest).length = hist.length := by
        rw [← hsl, length_sortDescBy]
      have hclen : ((latest :: rest).map (fun b => b.barClose)).length = hist.length := by
        rw [List.length_map, hlen]
      have heq : calculateMarketIndicators now m
          = some (marketRecordOfBars now m.index latest (latest :: rest)) := by
        simp [calculateMarketIndicators, herr, hh, hsl]
      refine ⟨_, _, heq, rfl, ?_, ?_⟩
      · have hiff :=
          volatility30dOf_eq_none_iff ((latest :: rest).map (fun b => b.barClose))
        rw [hclen] at hiff
        exact hiff
      · intro h30
        exact ⟨specReturns_length _,
          volatility30dOf_eq_spec _ (by rw [hclen]; exact h30)⟩

/-- Witness for C2 at a concrete 31-bar equity series and a concrete 31-bar
index series (the volatility becomes non-null). -/
theorem metricEngine_volatility_witness :
    (∃ rec vb, calculateStockMetrics "t1" (sampleStockData 31) = some rec ∧
      rec.volatility = some vb ∧
      (vb.volatility30d = none ↔ (sampleBars 31).length ≤ 30) ∧
      (30 < (sampleBars 31).length →
        (specReturns ((sortDescBy Prod.fst (sampleBars 31)).map
            (fun e => e.2.barClose))).length = 30 ∧
        vb.volatility30d = some (Real.sqrt
            ((popVariance (specReturns
              ((sortDescBy Prod.fst (sampleBars 31)).map (fun e => e.2.barClose))) : ℚ) : ℝ)
          * Real.sqrt 252 * 100))) ∧
    (∃ rec vb, calculateMarketIndicators "t1" (sampleMarketData 31) = some rec ∧
      rec.volatility = some vb ∧
      (vb.volatility30d = none ↔ (sampleMarketBars 31).length ≤ 30) ∧
      (30 < (sampleMarketBars 31).length →
        (specReturns ((sortDescBy MarketBar.date (sampleMarketBars 31)).map
            (fun b => b.barClose))).length = 30 ∧
        vb.volatility30d = some (Real.sqrt
            ((popVariance (specReturns
              ((sortDescBy MarketBar.date (sampleMarketBars 31)).map
                (fun b => b.barClose))) : ℚ) : ℝ)
          * Real.sqrt 252 * 100))) :=
  ⟨metricEngine_volatility.1 "t1" (sampleStockData 31) (sampleBars 31) emptyOverview
     rfl rfl rfl (by decide),
   metricEngine_volatility.2 "t1" (sampleMarketData 31) (sampleMarketBars 31)
     rfl rfl (by decide)⟩

/-! ## C9 — determinism and the transformation timestamp -/

/-- C9 counterexample: the transformation timestamp is read from the clock,
so two invocations of the Metric Engine on the very same input at different
times yield different records (they differ in `transformedAt`), refuting
"two invocations on equal RawSeries inputs yield equal MetricsRecords
including every field". -/
theorem calculateStockMetrics_not_clock_free :
    calculateStockMetrics "2024-01-01T00:00:00.000Z" errSeries
      ≠ calculateStockMetrics "2024-01-02T00:00:00.000Z" errSeries := by
  intro h
  have h2 := congrArg (fun o => Option.map StockMetricsRecord.transformedAt o) h
  simp [calculateStockMetrics, errSeries, jsTruthy] at h2

/-- C9 amended: the Metric Engine performs no I/O apart from reading the
clock for its transformation timestamp; with that clock reading made an
explicit argument it is a pure, deterministic function, and two invocations
on equal inputs yield records equal in every field except `transformedAt`.
Stated for both engine functions. -/
theorem metricEngine_deterministic_up_to_timestamp :
    (∀ (now₁ now₂ : String) (s : StockData),
        (calculateStockMetrics now₁ s).map stripStockTimestamp
          = (calculateStockMetrics now₂ s).map stripStockTimestamp) ∧
    (∀ (now₁ now₂ : String) (m : MarketData),
        (calculateMarketIndicators now₁ m).map stripMarketTimestamp
          = (calculateMarketIndicators now₂ m).map stripMarketTimestamp) := by
  constructor
  · intro n1 n2 s
    unfold calculateStockMetrics
    by_cases herr : jsTruthy s.error = true
    · simp [herr, stripStockTimestamp]
    · have herr' : jsTruthy s.error = false := by
        cases hjs : jsTruthy s.error
        · rfl
        · exact absurd hjs herr
      simp only [herr', Bool.false_eq_true, if_false]
      cases hts : s.timeSeries with
      | none => rfl
      | some ts =>
          rcases hsl : sortDescBy Prod.fst ts with _ | ⟨latest, rest⟩
          · simp [hsl, stripStockTimestamp]
          · cases hov : s.overview with
            | none => simp [hsl]
            | some ov => simp [hsl, stripStockTimestamp, stockRecordOfEntries]
  · intro n1 n2 m
    unfold calculateMarketIndicators
    by_cases herr : jsTruthy m.error = true
    · simp [herr, stripMarketTimestamp]
    · have herr' : jsTruthy m.error = false := by
        cases hjs : jsTruthy m.error
        · rfl
        · exact absurd hjs herr
      simp only [herr', Bool.false_eq_true, if_false]
      cases hh : m.historical with
      | none => rfl
      | some hist =>
          rcases hsl : sortDescBy MarketBar.date hist with _ | ⟨latest, rest⟩
          · simp [hsl, stripMarketTimestamp]
          · simp [hsl, stripMarketTimestamp, marketRecordOfBars]

end ETL
